import Mathlib

/-!
# Verification of the libsockcanpp CAN driver core

Shallow embedding of `src/src/CanDriver.cpp` (class `sockcanpp::CanDriver`).
Each driver operation becomes a pure Lean function over an explicit driver
state; OS syscalls (`select`, `read`, `write`, `setsockopt`, `close`,
`socket`, `ioctl`, `fcntl`, `bind`) are modelled by oracle parameters giving
the syscall results, and every operation additionally returns a trace of the
syscalls it actually attempted, so that "no syscall is performed" claims are
statable.  C++ exceptions become an `Except` error channel with one variant
per distinct throw site / exception class.
-/

namespace Sockcanpp

/-- `CanDriver::CAN_MAX_DATA_LENGTH` (CanDriver.cpp line 67). -/
def CAN_MAX_DATA_LENGTH : Nat := 8

/-- `CAN_SFF_MASK` from `<linux/can.h>`: the standard 11-bit frame mask. -/
def CAN_SFF_MASK : Nat := 0x7FF

/-- `CAN_EFF_FLAG` from `<linux/can.h>`: the extended-frame flag, bit 31. -/
def CAN_EFF_FLAG : Nat := 0x80000000

/-- `sizeof(can_frame)` on Linux: 4-byte id, 1-byte dlc, 3 bytes padding,
8 data bytes = 16 bytes, the fixed on-wire frame size. -/
def sizeofCanFrame : Int := 16

/-- The kernel `can_frame` structure: 32-bit identifier-plus-flags field,
data-length code, 8-byte data array. -/
structure CanFrame where
  can_id : Nat
  can_dlc : Nat
  data : List Nat
  deriving DecidableEq, Repr

/-- Modelled from the spec: the message value type (`CanMessage.hpp` is not
under src/; spec §6 describes it as an opaque collaborator).  It exposes the
payload byte sequence (`getFrameData`), the raw structural frame view
(`getRawFrame`) and the numeric identifier (`getCanId`, read as `uint32_t`
in `CanDriver::sendMessage`). -/
structure CanMessage where
  canId : Nat
  frameData : List Nat
  rawFrame : CanFrame
  deriving DecidableEq, Repr

/-- Modelled from the spec: the receive-path constructor wrapping a raw
kernel frame into the message type (`CanMessage{canFrame}` in
`CanDriver::readMessageLock`). -/
def CanMessage.ofFrame (f : CanFrame) : CanMessage :=
  { canId := f.can_id, frameData := f.data, rawFrame := f }

/-- The error channel: one variant per distinct throw site / exception class
of CanDriver.cpp.  `invalidSocket` is `InvalidSocketException`;
`ioReadError`, `ioWriteError` and `dataTooLong` are the three `CanException`
throw sites (read failure, write failure, payload-length validation);
`initFailure` is `CanInitException`; `closeNotOpen` and `closeOsError` are
the two `CanCloseException` throw sites of `uninitialiseSocketCan`. -/
inductive CanError where
  | invalidSocket (fd : Int)
  | ioReadError (fd : Int)
  | ioWriteError (fd : Int)
  | dataTooLong (fd : Int)
  | initFailure
  | closeNotOpen
  | closeOsError
  deriving DecidableEq, Repr

/-- True for the `InvalidSocketException` variant only. -/
def CanError.isInvalidSocket : CanError → Bool
  | .invalidSocket _ => true
  | _ => false

/-- The mutable fields of `CanDriver` that the modelled operations touch
(CanDriver.hpp lines 92-102).  `defaultSenderId` is the `CanId` field read
through its `int32_t` conversion; the two mutexes carry no data and are
omitted from the pure state. -/
structure DriverState where
  defaultSenderId : Int
  canFilterMask : Int
  canProtocol : Int
  socketFd : Int
  queueSize : Int
  deriving DecidableEq, Repr

/-- The frame handed to `write` by `CanDriver::sendMessage` (CanDriver.cpp
lines 140-143): the message's raw frame, with `CAN_EFF_FLAG` OR'd into the
identifier field when `forceExtended` is set or the identifier exceeds
`CAN_SFF_MASK`. -/
def sentFrame (message : CanMessage) (forceExtended : Bool) : CanFrame :=
  if forceExtended || decide (message.canId > CAN_SFF_MASK) then
    { message.rawFrame with
        can_id := message.rawFrame.can_id ||| CAN_EFF_FLAG }
  else message.rawFrame

/-- `CanDriver::sendMessage` (CanDriver.cpp lines 125-154).  `writeRes`
gives the result of the `write` syscall for the frame passed to it; the
second component of the result is the list of frames actually handed to
`write`. -/
def sendMessage (s : DriverState) (writeRes : CanFrame → Int)
    (message : CanMessage) (forceExtended : Bool) :
    Except CanError Int × List CanFrame :=
  if s.socketFd < 0 then (.error (.invalidSocket s.socketFd), [])
  else if message.frameData.length > CAN_MAX_DATA_LENGTH then
    (.error (.dataTooLong s.socketFd), [])
  else
    let canFrame := sentFrame message forceExtended
    let bytesWritten := writeRes canFrame
    if bytesWritten = -1 then (.error (.ioWriteError s.socketFd), [canFrame])
    else (.ok bytesWritten, [canFrame])

/-- The loop body of `CanDriver::sendMessageQueue` (CanDriver.cpp lines
163-166): drain the queue front-first, accumulating the byte counts; the
first failure propagates.  `writeRess i` is the `write` oracle for the
`i`-th dynamic call to `sendMessage`; the trace accumulates all frames
written. -/
def sendQueueLoop (s : DriverState) (writeRess : Nat → CanFrame → Int)
    (forceExtended : Bool) : Nat → List CanMessage →
    Except CanError Int × List CanFrame
  | _, [] => (.ok 0, [])
  | idx, m :: rest =>
    match sendMessage s (writeRess idx) m forceExtended with
    | (.error e, tr) => (.error e, tr)
    | (.ok n, tr) =>
      match sendQueueLoop s writeRess forceExtended (idx + 1) rest with
      | (.error e, tr') => (.error e, tr ++ tr')
      | (.ok total, tr') => (.ok (n + total), tr ++ tr')

/-- `CanDriver::sendMessageQueue` (CanDriver.cpp lines 156-169).  The
`delay` parameter of the C++ signature is accepted but never used by the
body, so it does not appear in the model. -/
def sendMessageQueue (s : DriverState) (writeRess : Nat → CanFrame → Int)
    (messages : List CanMessage) (forceExtended : Bool) :
    Except CanError Int × List CanFrame :=
  if s.socketFd < 0 then (.error (.invalidSocket s.socketFd), [])
  else sendQueueLoop s writeRess forceExtended 0 messages

/-- `CanDriver::readMessageLock` (CanDriver.cpp lines 107-123).  `readRes`
gives the `read` syscall outcome: the byte count and the frame the kernel
left in the buffer (the buffer is zeroed beforehand, so on a short read the
tail is zero — the oracle describes the resulting memory).  The Boolean
records whether the `read` syscall was attempted.  The `lock` parameter of
the C++ signature only selects mutex acquisition and has no effect on the
result. -/
def readMessageLock (s : DriverState) (readRes : Int × CanFrame) :
    Except CanError CanMessage × Bool :=
  if 0 > s.socketFd then (.error (.invalidSocket s.socketFd), false)
  else if 0 > readRes.1 then (.error (.ioReadError s.socketFd), true)
  else (.ok (CanMessage.ofFrame readRes.2), true)

/-- `CanDriver::readMessage` (CanDriver.cpp line 105): delegates to
`readMessageLock` with locking on. -/
def readMessage (s : DriverState) (readRes : Int × CanFrame) :
    Except CanError CanMessage × Bool :=
  readMessageLock s readRes

/-- The loop of `CanDriver::readQueuedMessages` (CanDriver.cpp lines
176-177): `for (int32_t i = _queueSize; 0 < i; --i)` calling
`readMessageLock(false)` each iteration.  `reads i` is the `read` oracle for
the `i`-th dynamic read; the Nat counts the `read` syscalls attempted. -/
def readQueuedLoop (s : DriverState) (reads : Nat → Int × CanFrame) :
    Nat → Nat → Except CanError (List CanMessage) × Nat
  | _, 0 => (.ok [], 0)
  | idx, n + 1 =>
    match readMessageLock s (reads idx) with
    | (.error e, b) => (.error e, if b then 1 else 0)
    | (.ok m, _) =>
      match readQueuedLoop s reads (idx + 1) n with
      | (.error e, c) => (.error e, c + 1)
      | (.ok ms, c) => (.ok (m :: ms), c + 1)

/-- `CanDriver::readQueuedMessages` (CanDriver.cpp lines 171-179): drains
`_queueSize` frames (no iterations when `_queueSize ≤ 0`). -/
def readQueuedMessages (s : DriverState) (reads : Nat → Int × CanFrame) :
    Except CanError (List CanMessage) × Nat :=
  if s.socketFd < 0 then (.error (.invalidSocket s.socketFd), 0)
  else readQueuedLoop s reads 0 s.queueSize.toNat

/-- The `timeval` computed by `CanDriver::waitForMessages` (CanDriver.cpp
lines 95-96): `tv_sec = timeout / 1000`, `tv_usec = timeout * 1000` for a
timeout of `timeout` milliseconds.  A `(0, 0)` value makes `select` poll
without blocking. -/
def waitTimeval (timeout : Int) : Int × Int :=
  (timeout / 1000, timeout * 1000)

/-- `CanDriver::waitForMessages` (CanDriver.cpp lines 87-103).  `selectRes`
is the result of the `select` call; it is stored into `_queueSize`
unconditionally and the function returns `_queueSize > 0`.  The second
component is the `timeval` passed to the `select` call, `none` when
`select` was never attempted. -/
def waitForMessages (s : DriverState) (timeout : Int) (selectRes : Int) :
    Except CanError (DriverState × Bool) × Option (Int × Int) :=
  if s.socketFd < 0 then (.error (.invalidSocket s.socketFd), none)
  else
    (.ok ({ s with queueSize := selectRes }, decide (selectRes > 0)),
      some (waitTimeval timeout))

/-- The kernel `can_filter` structure: an `{id, mask}` acceptance pair. -/
structure CanFilter where
  can_id : Int
  can_mask : Int
  deriving DecidableEq, Repr

/-- The `can_filter` value built by `CanDriver::setCanFilterMask`
(CanDriver.cpp lines 186-193): `can_id` is `id` when `id` is nonzero and
`_defaultSenderId` otherwise; `can_mask` is `mask`. -/
def filterFor (s : DriverState) (mask id : Int) : CanFilter :=
  { can_id := if id ≠ 0 then id else s.defaultSenderId, can_mask := mask }

/-- `CanDriver::setCanFilterMask` (CanDriver.cpp lines 181-202).
`setsockoptRes` is the result of the `setsockopt` call; the second component
is the filter actually passed to `setsockopt`, `none` when the syscall was
never attempted. -/
def setCanFilterMask (s : DriverState) (setsockoptRes : Int)
    (mask id : Int) : Except CanError DriverState × Option CanFilter :=
  if s.socketFd < 0 then (.error (.invalidSocket s.socketFd), none)
  else if setsockoptRes = -1 then
    (.error .initFailure, some (filterFor s mask id))
  else (.ok { s with canFilterMask := mask }, some (filterFor s mask id))

/-- `CanDriver::uninitialiseSocketCan` (CanDriver.cpp lines 247-258).
`closeRes` is the result of the `close` syscall; the Boolean records whether
`close` was called.  Note the guard is `_socketFd <= 0`, not `< 0`. -/
def uninitialiseSocketCan (s : DriverState) (closeRes : Int) :
    Except CanError DriverState × Bool :=
  if s.socketFd ≤ 0 then (.error .closeNotOpen, false)
  else if closeRes = -1 then (.error .closeOsError, true)
  else (.ok { s with socketFd := -1 }, true)

/-- The syscall steps of `CanDriver::initialiseSocketCan`, in the order the
code can attempt them; the filter-install step records the `can_filter`
passed to `setsockopt`. -/
inductive InitStep where
  | socketCreate
  | ioctlIfindex
  | fcntlGetFl
  | fcntlSetFl
  | installFilter (f : CanFilter)
  | bindSocket
  deriving DecidableEq, Repr

/-- The syscall oracle for one run of `initialiseSocketCan`. -/
structure InitOS where
  socketRes : Int
  ioctlRes : Int
  fcntlGetRes : Int
  fcntlSetRes : Int
  setsockoptRes : Int
  bindRes : Int
  deriving DecidableEq, Repr

/-- `CanDriver::initialiseSocketCan` (CanDriver.cpp lines 207-245): creates
the raw socket (storing the fd), resolves the interface index via `ioctl`,
toggles `O_NONBLOCK` via two `fcntl` calls (results unchecked), installs the
acceptance filter via `setCanFilterMask(_canFilterMask, _defaultSenderId)`,
then binds.  The trace lists the syscall steps attempted, in order. -/
def initialiseSocketCan (s : DriverState) (os : InitOS) :
    Except CanError DriverState × List InitStep :=
  let s := { s with socketFd := os.socketRes }
  if s.socketFd = -1 then (.error .initFailure, [.socketCreate])
  else if os.ioctlRes = -1 then
    (.error .initFailure, [.socketCreate, .ioctlIfindex])
  else
    let fltr := filterFor s s.canFilterMask s.defaultSenderId
    match setCanFilterMask s os.setsockoptRes s.canFilterMask
        s.defaultSenderId with
    | (.error e, _) =>
      (.error e, [.socketCreate, .ioctlIfindex, .fcntlGetFl, .fcntlSetFl,
        .installFilter fltr])
    | (.ok s', _) =>
      if os.bindRes = -1 then
        (.error .initFailure, [.socketCreate, .ioctlIfindex, .fcntlGetFl,
          .fcntlSetFl, .installFilter fltr, .bindSocket])
      else
        (.ok s', [.socketCreate, .ioctlIfindex, .fcntlGetFl, .fcntlSetFl,
          .installFilter fltr, .bindSocket])

/-- Whether a send outcome is a success (used to state batch-send
properties). -/
def exceptOk : Except CanError Int → Bool
  | .ok _ => true
  | .error _ => false

/-- The byte count of a successful send outcome (0 on error; only used on
successes). -/
def bytesOf : Except CanError Int → Int
  | .ok n => n
  | .error _ => 0

/-! ## Helper lemmas -/

/-- On an open socket with a legal payload, `sendMessage` writes exactly one
frame — `sentFrame` — and maps the `write` result through the `-1` error
check. -/
theorem sendMessage_open_shortPayload (s : DriverState) (w : CanFrame → Int)
    (m : CanMessage) (fe : Bool) (hfd : 0 ≤ s.socketFd)
    (hlen : m.frameData.length ≤ CAN_MAX_DATA_LENGTH) :
    sendMessage s w m fe =
      if w (sentFrame m fe) = -1 then
        (.error (.ioWriteError s.socketFd), [sentFrame m fe])
      else (.ok (w (sentFrame m fe)), [sentFrame m fe]) := by
  unfold sendMessage
  rw [if_neg (not_lt.mpr hfd), if_neg (not_lt.mpr hlen)]

/-- C1: the frame transmitted by `sendMessage` has the extended-frame flag
(`CAN_EFF_FLAG`, bit 31) set in its identifier field iff `forceExtended` is
true or the message identifier exceeds `CAN_SFF_MASK` (0x7FF); for
identifiers ≤ 0x7FF with `forceExtended` false the identifier field is
transmitted unchanged. -/
theorem sendMessage_extended_flag (s : DriverState) (w : CanFrame → Int)
    (m : CanMessage) (fe : Bool) (hfd : 0 ≤ s.socketFd)
    (hlen : m.frameData.length ≤ CAN_MAX_DATA_LENGTH)
    (hraw : m.rawFrame.can_id = m.canId) (hid : m.canId < 2 ^ 29) :
    ∃ f : CanFrame, (sendMessage s w m fe).2 = [f] ∧
      (f.can_id.testBit 31 = true ↔ (fe = true ∨ CAN_SFF_MASK < m.canId)) ∧
      (fe = false → m.canId ≤ CAN_SFF_MASK → f.can_id = m.rawFrame.can_id) := by
  have htrace : (sendMessage s w m fe).2 = [sentFrame m fe] := by
    rw [sendMessage_open_shortPayload s w m fe hfd hlen]
    split <;> rfl
  have hlow : m.rawFrame.can_id.testBit 31 = false := by
    rw [hraw]
    exact Nat.testBit_eq_false_of_lt (lt_trans hid (by norm_num))
  refine ⟨sentFrame m fe, htrace, ?_, ?_⟩
  · by_cases hc : fe = true ∨ CAN_SFF_MASK < m.canId
    · have hb : (fe || decide (m.canId > CAN_SFF_MASK)) = true := by
        rcases hc with h | h <;> simp [h]
      have hset : (sentFrame m fe).can_id.testBit 31 = true := by
        unfold sentFrame
        rw [hb]
        have hflag : CAN_EFF_FLAG.testBit 31 = true := by decide
        simp [Nat.testBit_lor, hflag]
      simp [hset, hc]
    · push_neg at hc
      obtain ⟨hfe, hle⟩ := hc
      have hfe' : fe = false := by
        cases fe with
        | false => rfl
        | true => exact absurd rfl hfe
      have hb : (fe || decide (m.canId > CAN_SFF_MASK)) = false := by
        simp [hfe', not_lt.mpr hle]
      have hunset : (sentFrame m fe).can_id.testBit 31 = false := by
        unfold sentFrame
        rw [hb]
        simpa using hlow
      constructor
      · intro hbit
        rw [hunset] at hbit
        simp at hbit
      · intro h
        rcases h with h | h
        · rw [hfe'] at h
          simp at h
        · exact absurd h (not_lt.mpr hle)
  · intro h1 h2
    have hb : (fe || decide (m.canId > CAN_SFF_MASK)) = false := by
      simp [h1, not_lt.mpr h2]
    unfold sentFrame
    rw [hb]
    simp

/-- C1 witness: a concrete message with identifier 0x800 > 0x7FF and
`forceExtended = false` gets the extended flag; the hypotheses are
discharged at the instance. -/
theorem sendMessage_extended_flag_witness :
    ∃ f : CanFrame,
      (sendMessage ⟨0, 0, 1, 3, 0⟩ (fun _ => 16)
          ⟨0x800, [1, 2], ⟨0x800, 2, [1, 2]⟩⟩ false).2 = [f] ∧
      (f.can_id.testBit 31 = true ↔
        (false = true ∨ CAN_SFF_MASK < 0x800)) ∧
      (false = false → 0x800 ≤ CAN_SFF_MASK →
        f.can_id = (0x800 : Nat)) :=
  sendMessage_extended_flag ⟨0, 0, 1, 3, 0⟩ (fun _ => 16)
    ⟨0x800, [1, 2], ⟨0x800, 2, [1, 2]⟩⟩ false (by decide) (by decide)
    (by decide) (by decide)

/-- C3: payloads longer than 8 bytes are rejected with the validation
failure before any `write` is attempted (empty syscall trace); payloads of
at most 8 bytes never raise the validation failure, and when the `write`
syscall succeeds — writing the full fixed-size frame — the returned byte
count is `sizeof(can_frame)` = 16, which differs from the payload length. -/
theorem sendMessage_payload_validation (s : DriverState) (w : CanFrame → Int)
    (m : CanMessage) (fe : Bool) (hfd : 0 ≤ s.socketFd) :
    (CAN_MAX_DATA_LENGTH < m.frameData.length →
      sendMessage s w m fe = (.error (.dataTooLong s.socketFd), [])) ∧
    (m.frameData.length ≤ CAN_MAX_DATA_LENGTH →
      (sendMessage s w m fe).1 ≠ .error (.dataTooLong s.socketFd) ∧
      ((∀ f, w f = sizeofCanFrame) →
        (sendMessage s w m fe).1 = .ok sizeofCanFrame ∧
          sizeofCanFrame ≠ (m.frameData.length : Int))) := by
  refine ⟨?_, ?_⟩
  · intro hlen
    unfold sendMessage
    rw [if_neg (not_lt.mpr hfd), if_pos hlen]
  · intro hlen
    rw [sendMessage_open_shortPayload s w m fe hfd hlen]
    refine ⟨?_, ?_⟩
    · split <;> simp
    · intro hw
      rw [hw (sentFrame m fe)]
      have h16 : ¬ (sizeofCanFrame = -1) := by decide
      rw [if_neg h16]
      refine ⟨rfl, ?_⟩
      have h8 : m.frameData.length ≤ 8 := by
        simpa [CAN_MAX_DATA_LENGTH] using hlen
      have hlen' : (m.frameData.length : Int) ≤ 8 := by exact_mod_cast h8
      unfold sizeofCanFrame
      omega

/-- C3 witness: a 3-byte payload on an open socket with a full-frame write
returns the 16-byte frame size. -/
theorem sendMessage_payload_validation_witness :
    (sendMessage ⟨0, 0, 1, 3, 0⟩ (fun _ => 16)
        ⟨5, [1, 2, 3], ⟨5, 3, [1, 2, 3]⟩⟩ false).1 = .ok sizeofCanFrame :=
  (((sendMessage_payload_validation ⟨0, 0, 1, 3, 0⟩ (fun _ => 16)
      ⟨5, [1, 2, 3], ⟨5, 3, [1, 2, 3]⟩⟩ false (by decide)).2
    (by decide)).2 (fun _ => rfl)).1

/-- C2 counterexample: closing a channel whose socket handle is −1 (not
open) fails with the close-failure error (`CanCloseException`, "Cannot
close invalid socket!"), which is not the invalid-socket error
(`InvalidSocketException`) — refuting "fails with an invalid-socket error"
for the close operation. -/
theorem close_error_not_invalidSocket :
    (uninitialiseSocketCan ⟨0, 0, 1, -1, 0⟩ 0).1 =
        .error CanError.closeNotOpen ∧
    CanError.closeNotOpen.isInvalidSocket = false :=
  ⟨rfl, rfl⟩

/-- C2 (amended): every receive, wait, send, or filter operation on a
channel whose socket handle is negative fails with the invalid-socket error
and attempts no syscall (empty trace); close on such a channel likewise
attempts no OS `close`, but fails with the close-failure error ("Cannot
close invalid socket!") rather than the invalid-socket error. -/
theorem closed_socket_ops_fail (s : DriverState) (hfd : s.socketFd < 0)
    (r : Int × CanFrame) (reads : Nat → Int × CanFrame)
    (w : CanFrame → Int) (ws : Nat → CanFrame → Int)
    (m : CanMessage) (ms : List CanMessage) (fe : Bool)
    (t sel mask fid c : Int) :
    readMessageLock s r = (.error (.invalidSocket s.socketFd), false) ∧
    readMessage s r = (.error (.invalidSocket s.socketFd), false) ∧
    readQueuedMessages s reads = (.error (.invalidSocket s.socketFd), 0) ∧
    sendMessage s w m fe = (.error (.invalidSocket s.socketFd), []) ∧
    sendMessageQueue s ws ms fe = (.error (.invalidSocket s.socketFd), []) ∧
    waitForMessages s t sel = (.error (.invalidSocket s.socketFd), none) ∧
    setCanFilterMask s c mask fid =
      (.error (.invalidSocket s.socketFd), none) ∧
    uninitialiseSocketCan s c = (.error .closeNotOpen, false) := by
  have hfd' : s.socketFd ≤ 0 := le_of_lt hfd
  refine ⟨?_, ?_, ?_, ?_, ?_, ?_, ?_, ?_⟩ <;>
    simp [readMessageLock, readMessage, readQueuedMessages, sendMessage,
      sendMessageQueue, waitForMessages, setCanFilterMask,
      uninitialiseSocketCan, hfd, hfd']

/-- C2 witness: the send path at socket handle −1. -/
theorem closed_socket_ops_fail_witness :
    sendMessage ⟨0, 0, 1, -1, 0⟩ (fun _ => 16) ⟨5, [1], ⟨5, 1, [1]⟩⟩ false =
      (.error (.invalidSocket (-1)), []) :=
  (closed_socket_ops_fail ⟨0, 0, 1, -1, 0⟩ (by decide) (0, ⟨0, 0, []⟩)
    (fun _ => (0, ⟨0, 0, []⟩)) (fun _ => 16) (fun _ _ => 16)
    ⟨5, [1], ⟨5, 1, [1]⟩⟩ [] false 0 0 0 0 0).2.2.2.1

/-- C4 counterexample: socket handle 0 is non-negative — "open" under the
claim's definition — yet close raises the cannot-close-an-unopened-channel
failure, because the code guards with `_socketFd <= 0`, not `< 0`. -/
theorem close_fd_zero_raises :
    (0 : Int) ≥ 0 ∧
    (uninitialiseSocketCan ⟨0, 0, 1, 0, 0⟩ 0).1 =
      .error CanError.closeNotOpen :=
  ⟨le_refl 0, rfl⟩

/-- C4 (amended): close signals the cannot-close-an-unopened-channel
failure exactly when the socket handle is ≤ 0 (the code also treats handle
0 as unopened); for a handle > 0, when the OS close succeeds the handle is
reset to −1, so a second close in sequence fails with that close failure. -/
theorem uninitialise_close_spec (s : DriverState) (c : Int) :
    ((uninitialiseSocketCan s c).1 = .error .closeNotOpen ↔
      s.socketFd ≤ 0) ∧
    (0 < s.socketFd → c ≠ -1 →
      ∃ s' : DriverState,
        uninitialiseSocketCan s c = (.ok s', true) ∧ s'.socketFd = -1 ∧
        ∀ c' : Int,
          (uninitialiseSocketCan s' c').1 = .error .closeNotOpen) := by
  constructor
  · constructor
    · intro h
      by_contra hle
      push_neg at hle
      unfold uninitialiseSocketCan at h
      rw [if_neg (not_le.mpr hle)] at h
      split at h <;> simp_all
    · intro h
      unfold uninitialiseSocketCan
      rw [if_pos h]
  · intro hpos hc
    refine ⟨{ s with socketFd := -1 }, ?_, rfl, ?_⟩
    · unfold uninitialiseSocketCan
      rw [if_neg (not_le.mpr hpos), if_neg hc]
    · intro c'
      simp [uninitialiseSocketCan]

/-- C4 witness: a channel with handle 5 closes successfully, the handle is
reset to −1 and a second close fails. -/
theorem uninitialise_close_spec_witness :
    ∃ s' : DriverState,
      uninitialiseSocketCan ⟨0, 0, 1, 5, 0⟩ 0 = (.ok s', true) ∧
      s'.socketFd = -1 ∧
      ∀ c' : Int, (uninitialiseSocketCan s' c').1 = .error .closeNotOpen :=
  (uninitialise_close_spec ⟨0, 0, 1, 5, 0⟩ 0).2 (by decide) (by decide)

/-- C7: on an open channel the `select` result is stored into `_queueSize`
and the call returns true iff that stored count is strictly positive; with
timeout 0 the `timeval` handed to `select` is `(0, 0)` — a non-blocking
poll — and with no data pending the call returns false. -/
theorem waitForMessages_spec (s : DriverState) (t sel : Int)
    (hfd : 0 ≤ s.socketFd) :
    (∃ s' b, (waitForMessages s t sel).1 = .ok (s', b) ∧
      s'.queueSize = sel ∧ (b = true ↔ 0 < sel)) ∧
    (waitForMessages s 0 sel).2 = some (0, 0) ∧
    (sel ≤ 0 →
      (waitForMessages s 0 sel).1 =
        .ok ({ s with queueSize := sel }, false)) := by
  have hfd' : ¬ s.socketFd < 0 := not_lt.mpr hfd
  refine ⟨⟨{ s with queueSize := sel }, decide (sel > 0), ?_, rfl, ?_⟩,
    ?_, ?_⟩
  · unfold waitForMessages
    rw [if_neg hfd']
  · simp
  · unfold waitForMessages
    rw [if_neg hfd']
    simp [waitTimeval]
  · intro hsel
    unfold waitForMessages
    rw [if_neg hfd']
    simp [decide_eq_false (not_lt.mpr hsel)]

/-- C7 witness: polling an open channel (handle 3) with timeout 0 and no
pending data. -/
theorem waitForMessages_spec_witness :
    (∃ s' b, (waitForMessages ⟨0, 0, 1, 3, 7⟩ 0 0).1 = .ok (s', b) ∧
      s'.queueSize = 0 ∧ (b = true ↔ (0 : Int) < 0)) ∧
    (waitForMessages ⟨0, 0, 1, 3, 7⟩ 0 0).2 = some (0, 0) ∧
    ((0 : Int) ≤ 0 →
      (waitForMessages ⟨0, 0, 1, 3, 7⟩ 0 0).1 =
        .ok (⟨0, 0, 1, 3, 0⟩, false)) :=
  waitForMessages_spec ⟨0, 0, 1, 3, 7⟩ 0 0 (by decide)

/-- C10: when `select` itself fails (negative result) on an open channel,
`waitForMessages` raises no error: the negative count is stored into
`_queueSize` unchanged and the call returns false — by return value
indistinguishable from a `select` that timed out with no frames ready. -/
theorem waitForMessages_select_error_silent (s : DriverState) (t sel : Int)
    (hfd : 0 ≤ s.socketFd) (hneg : sel < 0) :
    waitForMessages s t sel =
      (.ok ({ s with queueSize := sel }, false), some (waitTimeval t)) ∧
    ((waitForMessages s t sel).1.map fun p => p.2) =
      ((waitForMessages s t 0).1.map fun p => p.2) := by
  have hfd' : ¬ s.socketFd < 0 := not_lt.mpr hfd
  have hsel : decide (sel > 0) = false :=
    decide_eq_false (not_lt.mpr (le_of_lt hneg))
  constructor
  · unfold waitForMessages
    rw [if_neg hfd', hsel]
  · simp [waitForMessages, hfd', hsel, Except.map]

/-- C10 witness: `select` result −1 on an open channel. -/
theorem waitForMessages_select_error_silent_witness :
    waitForMessages ⟨0, 0, 1, 3, 7⟩ 100 (-1) =
      (.ok (⟨0, 0, 1, 3, -1⟩, false), some (waitTimeval 100)) ∧
    ((waitForMessages ⟨0, 0, 1, 3, 7⟩ 100 (-1)).1.map fun p => p.2) =
      ((waitForMessages ⟨0, 0, 1, 3, 7⟩ 100 0).1.map fun p => p.2) :=
  waitForMessages_select_error_silent ⟨0, 0, 1, 3, 7⟩ 100 (-1)
    (by decide) (by decide)

/-- C8: on an open channel `setCanFilterMask` hands `setsockopt` the filter
pair whose identifier is `_defaultSenderId` when `id` is zero and `id`
verbatim otherwise, with the given mask; on success the stored filter mask
is updated, and on `setsockopt` failure the initialization-class failure is
raised. -/
theorem setCanFilterMask_spec (s : DriverState) (r mask fid : Int)
    (hfd : 0 ≤ s.socketFd) :
    (setCanFilterMask s r mask fid).2 =
      some { can_id := if fid = 0 then s.defaultSenderId else fid,
             can_mask := mask } ∧
    (r ≠ -1 →
      (setCanFilterMask s r mask fid).1 =
        .ok { s with canFilterMask := mask }) ∧
    (r = -1 →
      (setCanFilterMask s r mask fid).1 = .error .initFailure) := by
  have hfd' : ¬ s.socketFd < 0 := not_lt.mpr hfd
  have hh : filterFor s mask fid =
      { can_id := if fid = 0 then s.defaultSenderId else fid,
        can_mask := mask } := by
    unfold filterFor
    by_cases h0 : fid = 0 <;> simp [h0]
  refine ⟨?_, ?_, ?_⟩
  · unfold setCanFilterMask
    rw [if_neg hfd']
    split <;> exact congrArg some hh
  · intro hr
    unfold setCanFilterMask
    rw [if_neg hfd', if_neg hr]
  · intro hr
    unfold setCanFilterMask
    rw [if_neg hfd', if_pos hr]

/-- C8 witness: id 0 installs the default sender id (0x123) with mask
0x7FF and the stored mask is updated. -/
theorem setCanFilterMask_spec_witness :
    (setCanFilterMask ⟨0x123, 0, 1, 3, 0⟩ 0 0x7FF 0).2 =
      some { can_id := if (0 : Int) = 0 then (0x123 : Int) else 0,
             can_mask := 0x7FF } ∧
    ((0 : Int) ≠ -1 →
      (setCanFilterMask ⟨0x123, 0, 1, 3, 0⟩ 0 0x7FF 0).1 =
        .ok ⟨0x123, 0x7FF, 1, 3, 0⟩) ∧
    ((0 : Int) = -1 →
      (setCanFilterMask ⟨0x123, 0, 1, 3, 0⟩ 0 0x7FF 0).1 =
        .error .initFailure) :=
  setCanFilterMask_spec ⟨0x123, 0, 1, 3, 0⟩ 0 0x7FF 0 (by decide)

/-- Helper: on an open socket, when the `n` reads starting at index `idx`
all succeed, the drain loop returns the wrapped frames in arrival order and
performs exactly `n` reads. -/
theorem readQueuedLoop_ok (s : DriverState) (reads : Nat → Int × CanFrame)
    (hfd : 0 ≤ s.socketFd) (n : Nat) :
    ∀ idx, (∀ i, i < n → 0 ≤ (reads (idx + i)).1) →
      readQueuedLoop s reads idx n =
        (.ok ((List.range n).map fun i =>
          CanMessage.ofFrame (reads (idx + i)).2), n) := by
  induction n with
  | zero => intro idx _; rfl
  | succ n ih =>
    intro idx h
    have h0 : ¬ (0 > (reads idx).1) := by
      have h' := h 0 (Nat.succ_pos n)
      simp only [Nat.add_zero] at h'
      exact not_lt.mpr h'
    have hread : readMessageLock s (reads idx) =
        (.ok (CanMessage.ofFrame (reads idx).2), true) := by
      unfold readMessageLock
      rw [if_neg (not_lt.mpr hfd), if_neg h0]
    have ih' := ih (idx + 1) (fun i hi => by
      have h' := h (i + 1) (Nat.succ_lt_succ hi)
      have heq : idx + (i + 1) = idx + 1 + i := by omega
      rwa [heq] at h')
    have hlist : CanMessage.ofFrame (reads idx).2 ::
        ((List.range n).map fun i =>
          CanMessage.ofFrame (reads (idx + 1 + i)).2) =
        (List.range (n + 1)).map fun i =>
          CanMessage.ofFrame (reads (idx + i)).2 := by
      simp only [List.range_succ_eq_map, List.map_cons, List.map_map,
        Nat.add_zero]
      congr 1
      apply List.map_congr_left
      intro a _
      show CanMessage.ofFrame (reads (idx + 1 + a)).2 =
        CanMessage.ofFrame (reads (idx + (a + 1))).2
      have h2 : idx + 1 + a = idx + (a + 1) := by omega
      rw [h2]
    simp only [readQueuedLoop, hread, ih']
    rw [← hlist]

/-- C5: after a `waitForMessages` that stored readiness count N, a drain
whose reads all succeed returns exactly max(N,0) messages — N of them when
N ≥ 0 — in arrival order, each wrapped from the raw frame read, performing
exactly max(N,0) reads. -/
theorem readQueuedMessages_drains_pending (s : DriverState) (t N : Int)
    (s' : DriverState) (b : Bool) (reads : Nat → Int × CanFrame)
    (hw : (waitForMessages s t N).1 = .ok (s', b))
    (hreads : ∀ i, i < N.toNat → 0 ≤ (reads i).1) :
    readQueuedMessages s' reads =
      (.ok ((List.range N.toNat).map fun i =>
        CanMessage.ofFrame (reads i).2), N.toNat) ∧
    (N.toNat : Int) = max N 0 := by
  have hfd : ¬ s.socketFd < 0 := by
    intro hneg
    unfold waitForMessages at hw
    rw [if_pos hneg] at hw
    cases hw
  replace hw :
      (Except.ok ({ s with queueSize := N }, decide (N > 0)) :
        Except CanError (DriverState × Bool)) =
      Except.ok (s', b) := by
    unfold waitForMessages at hw
    rw [if_neg hfd] at hw
    exact hw
  injection hw with hw
  injection hw with hw1 hw2
  constructor
  · rw [← hw1]
    unfold readQueuedMessages
    rw [if_neg hfd]
    have hloop := readQueuedLoop_ok { s with queueSize := N } reads
      (not_lt.mp hfd) N.toNat 0 (fun i hi => by
        have := hreads i hi
        simpa using this)
    simpa using hloop
  · omega

/-- C5 witness: readiness count 2 stored by a wait on an open channel
(handle 3); two successful reads return the two wrapped frames in order. -/
theorem readQueuedMessages_drains_pending_witness :
    readQueuedMessages ⟨0, 0, 1, 3, 2⟩ (fun i => (16, ⟨i, 1, [i]⟩)) =
      (.ok ((List.range (2 : Int).toNat).map fun i =>
        CanMessage.ofFrame
          ((fun j => ((16 : Int), CanFrame.mk j 1 [j])) i).2),
        (2 : Int).toNat) ∧
    (((2 : Int).toNat : Int) = max 2 0) :=
  readQueuedMessages_drains_pending ⟨0, 0, 1, 3, 0⟩ 0 2 ⟨0, 0, 1, 3, 2⟩
    true (fun i => (16, ⟨i, 1, [i]⟩)) rfl
    (fun i _ => by show (0 : Int) ≤ 16; norm_num)

/-- Helper: when every send of the enumerated input succeeds, the batch
loop returns the sum of the per-send byte counts and the concatenation of
the per-send syscall traces, in input order. -/
theorem sendQueueLoop_all_ok (s : DriverState) (ws : Nat → CanFrame → Int)
    (fe : Bool) (msgs : List CanMessage) :
    ∀ idx, (∀ p ∈ List.enumFrom idx msgs,
        exceptOk (sendMessage s (ws p.1) p.2 fe).1 = true) →
      sendQueueLoop s ws fe idx msgs =
        (.ok (((List.enumFrom idx msgs).map fun p =>
            bytesOf (sendMessage s (ws p.1) p.2 fe).1).sum),
         (List.enumFrom idx msgs).flatMap fun p =>
            (sendMessage s (ws p.1) p.2 fe).2) := by
  induction msgs with
  | nil => intro idx _; rfl
  | cons m rest ih =>
    intro idx h
    have hm : exceptOk (sendMessage s (ws idx) m fe).1 = true :=
      h (idx, m) (by simp [List.enumFrom_cons])
    obtain ⟨n, hn⟩ : ∃ n, (sendMessage s (ws idx) m fe).1 = .ok n := by
      cases hr : (sendMessage s (ws idx) m fe).1 with
      | ok n => exact ⟨n, rfl⟩
      | error e => rw [hr] at hm; simp [exceptOk] at hm
    obtain ⟨tr, hpair⟩ : ∃ tr, sendMessage s (ws idx) m fe = (.ok n, tr) := by
      refine ⟨(sendMessage s (ws idx) m fe).2, ?_⟩
      rw [← hn]
    have ih' := ih (idx + 1)
      (fun p hp => h p (by simp [List.enumFrom_cons, hp]))
    simp only [sendQueueLoop, hpair, ih']
    simp only [List.enumFrom_cons, List.map_cons, List.sum_cons,
      List.flatMap_cons, hpair, bytesOf]

/-- Helper: when the sends of `pre` succeed and the send of `mfail` fails,
the batch loop on `pre ++ mfail :: post` propagates the failing send's
error; its trace holds the frames of `pre` followed by the failing send's
trace, and `post` contributes nothing. -/
theorem sendQueueLoop_first_failure (s : DriverState)
    (ws : Nat → CanFrame → Int) (fe : Bool) (mfail : CanMessage)
    (post : List CanMessage) (pre : List CanMessage) :
    ∀ idx, (∀ p ∈ List.enumFrom idx pre,
        exceptOk (sendMessage s (ws p.1) p.2 fe).1 = true) →
      exceptOk (sendMessage s (ws (idx + pre.length)) mfail fe).1 = false →
      sendQueueLoop s ws fe idx (pre ++ mfail :: post) =
        ((sendMessage s (ws (idx + pre.length)) mfail fe).1,
         ((List.enumFrom idx pre).flatMap fun p =>
            (sendMessage s (ws p.1) p.2 fe).2) ++
          (sendMessage s (ws (idx + pre.length)) mfail fe).2) := by
  induction pre with
  | nil =>
    intro idx _ hfail
    simp only [List.length_nil, Nat.add_zero] at hfail ⊢
    obtain ⟨e, tr, hpair⟩ : ∃ e tr,
        sendMessage s (ws idx) mfail fe = (.error e, tr) := by
      cases hr : (sendMessage s (ws idx) mfail fe).1 with
      | ok n => rw [hr] at hfail; simp [exceptOk] at hfail
      | error e =>
        exact ⟨e, (sendMessage s (ws idx) mfail fe).2, by rw [← hr]⟩
    simp only [List.nil_append, sendQueueLoop, hpair,
      List.enumFrom_nil, List.flatMap_nil]
  | cons m pre' ih =>
    intro idx h hfail
    have hm : exceptOk (sendMessage s (ws idx) m fe).1 = true :=
      h (idx, m) (by simp [List.enumFrom_cons])
    obtain ⟨n, hn⟩ : ∃ n, (sendMessage s (ws idx) m fe).1 = .ok n := by
      cases hr : (sendMessage s (ws idx) m fe).1 with
      | ok n => exact ⟨n, rfl⟩
      | error e => rw [hr] at hm; simp [exceptOk] at hm
    obtain ⟨tr, hpair⟩ : ∃ tr, sendMessage s (ws idx) m fe = (.ok n, tr) := by
      refine ⟨(sendMessage s (ws idx) m fe).2, ?_⟩
      rw [← hn]
    have hlen : idx + (m :: pre').length = (idx + 1) + pre'.length := by
      simp only [List.length_cons]
      omega
    rw [hlen] at hfail
    obtain ⟨e', tr', hpair'⟩ : ∃ e' tr',
        sendMessage s (ws ((idx + 1) + pre'.length)) mfail fe =
          (.error e', tr') := by
      cases hr : (sendMessage s (ws ((idx + 1) + pre'.length)) mfail fe).1
        with
      | ok n => rw [hr] at hfail; simp [exceptOk] at hfail
      | error e =>
        exact ⟨e,
          (sendMessage s (ws ((idx + 1) + pre'.length)) mfail fe).2,
          by rw [← hr]⟩
    have ih' := ih (idx + 1)
      (fun p hp => h p (by simp [List.enumFrom_cons, hp])) hfail
    have ih2 : sendQueueLoop s ws fe (idx + 1)
        (pre'.append (mfail :: post)) =
        (.error e',
         ((List.enumFrom (idx + 1) pre').flatMap fun p =>
            (sendMessage s (ws p.1) p.2 fe).2) ++ tr') := by
      rw [show pre'.append (mfail :: post) = pre' ++ mfail :: post from rfl,
        ih', hpair']
    rw [hlen, hpair']
    simp only [List.cons_append, sendQueueLoop, hpair, ih2,
      List.enumFrom_cons, List.flatMap_cons, hpair, List.append_assoc]

/-- C6: on an open channel the batch send drains the input in FIFO order:
when every per-element send succeeds it returns the sum of the per-frame
byte counts, with the frame traces concatenated in input order; and when
the element at position `pre.length` is the first to fail, its failure
propagates as the result, the frames of the preceding elements remain
written, and the elements after it are never attempted (they contribute
nothing to the syscall trace). -/
theorem sendMessageQueue_fifo_spec (s : DriverState)
    (ws : Nat → CanFrame → Int) (msgs : List CanMessage) (fe : Bool)
    (hfd : 0 ≤ s.socketFd) :
    ((∀ p ∈ List.enumFrom 0 msgs,
        exceptOk (sendMessage s (ws p.1) p.2 fe).1 = true) →
      sendMessageQueue s ws msgs fe =
        (.ok (((List.enumFrom 0 msgs).map fun p =>
            bytesOf (sendMessage s (ws p.1) p.2 fe).1).sum),
         (List.enumFrom 0 msgs).flatMap fun p =>
            (sendMessage s (ws p.1) p.2 fe).2)) ∧
    (∀ pre mfail post, msgs = pre ++ mfail :: post →
      (∀ p ∈ List.enumFrom 0 pre,
        exceptOk (sendMessage s (ws p.1) p.2 fe).1 = true) →
      exceptOk (sendMessage s (ws pre.length) mfail fe).1 = false →
      sendMessageQueue s ws msgs fe =
        ((sendMessage s (ws pre.length) mfail fe).1,
         ((List.enumFrom 0 pre).flatMap fun p =>
            (sendMessage s (ws p.1) p.2 fe).2) ++
          (sendMessage s (ws pre.length) mfail fe).2)) := by
  have hfd' : ¬ s.socketFd < 0 := not_lt.mpr hfd
  constructor
  · intro h
    unfold sendMessageQueue
    rw [if_neg hfd']
    exact sendQueueLoop_all_ok s ws fe msgs 0 h
  · intro pre mfail post hsplit h hfail
    subst hsplit
    unfold sendMessageQueue
    rw [if_neg hfd']
    have hres := sendQueueLoop_first_failure s ws fe mfail post pre 0 h
      (by simpa using hfail)
    simpa using hres

/-- C6 witness: the spec's three-element scenario — the second element has
a 9-byte payload; the first element's frame is written, the batch fails
with the validation failure, and the third element is never attempted. -/
theorem sendMessageQueue_fifo_spec_witness :
    sendMessageQueue ⟨0, 0, 1, 3, 0⟩ (fun _ _ => 16)
        [⟨1, [1], ⟨1, 1, [1]⟩⟩,
         ⟨2, [1, 2, 3, 4, 5, 6, 7, 8, 9],
           ⟨2, 9, [1, 2, 3, 4, 5, 6, 7, 8, 9]⟩⟩,
         ⟨3, [3], ⟨3, 1, [3]⟩⟩] false =
      (.error (.dataTooLong 3), [⟨1, 1, [1]⟩]) := by
  have h := (sendMessageQueue_fifo_spec ⟨0, 0, 1, 3, 0⟩ (fun _ _ => 16)
      [⟨1, [1], ⟨1, 1, [1]⟩⟩,
       ⟨2, [1, 2, 3, 4, 5, 6, 7, 8, 9],
         ⟨2, 9, [1, 2, 3, 4, 5, 6, 7, 8, 9]⟩⟩,
       ⟨3, [3], ⟨3, 1, [3]⟩⟩] false (by decide)).2
      [⟨1, [1], ⟨1, 1, [1]⟩⟩]
      ⟨2, [1, 2, 3, 4, 5, 6, 7, 8, 9], ⟨2, 9, [1, 2, 3, 4, 5, 6, 7, 8, 9]⟩⟩
      [⟨3, [3], ⟨3, 1, [3]⟩⟩] rfl (by decide) (by decide)
  rw [h]
  rfl

/-- C9 counterexample: an oracle in which both `fcntl` calls fail (return
−1) while every other step succeeds — initialization nevertheless completes
successfully, so a failure at the non-blocking-mode step does not abort
with an initialization failure (the code never checks the `fcntl`
results). -/
theorem initialise_fcntl_failure_ignored :
    (InitOS.mk 3 0 (-1) (-1) 0 0).fcntlGetRes = -1 ∧
    (InitOS.mk 3 0 (-1) (-1) 0 0).fcntlSetRes = -1 ∧
    (initialiseSocketCan ⟨7, 5, 1, -1, 0⟩ ⟨3, 0, -1, -1, 0, 0⟩).1 =
      .ok ⟨7, 5, 1, 3, 0⟩ :=
  ⟨rfl, rfl, rfl⟩

/-- C9 (amended): the steps occur in the order socket creation, interface
index resolution, the two non-blocking-mode `fcntl` calls, acceptance
filter install with the constructor-supplied mask and the default sender
id, then bind — the filter install always precedes the bind; a failure at
socket creation, interface-index resolution, filter install, or bind
aborts with the initialization failure, while the results of the
non-blocking-mode `fcntl` calls are never checked, so a failure there does
not abort. -/
theorem initialiseSocketCan_spec (s : DriverState) (os : InitOS) :
    (os.socketRes = -1 →
      initialiseSocketCan s os = (.error .initFailure, [.socketCreate])) ∧
    (os.socketRes ≠ -1 → os.ioctlRes = -1 →
      initialiseSocketCan s os =
        (.error .initFailure, [.socketCreate, .ioctlIfindex])) ∧
    (0 ≤ os.socketRes → os.ioctlRes ≠ -1 → os.setsockoptRes = -1 →
      initialiseSocketCan s os =
        (.error .initFailure,
         [.socketCreate, .ioctlIfindex, .fcntlGetFl, .fcntlSetFl,
          .installFilter ⟨s.defaultSenderId, s.canFilterMask⟩])) ∧
    (0 ≤ os.socketRes → os.ioctlRes ≠ -1 → os.setsockoptRes ≠ -1 →
      os.bindRes = -1 →
      initialiseSocketCan s os =
        (.error .initFailure,
         [.socketCreate, .ioctlIfindex, .fcntlGetFl, .fcntlSetFl,
          .installFilter ⟨s.defaultSenderId, s.canFilterMask⟩,
          .bindSocket])) ∧
    (0 ≤ os.socketRes → os.ioctlRes ≠ -1 → os.setsockoptRes ≠ -1 →
      os.bindRes ≠ -1 →
      initialiseSocketCan s os =
        (.ok { s with socketFd := os.socketRes },
         [.socketCreate, .ioctlIfindex, .fcntlGetFl, .fcntlSetFl,
          .installFilter ⟨s.defaultSenderId, s.canFilterMask⟩,
          .bindSocket])) := by
  have hfl : filterFor { s with socketFd := os.socketRes } s.canFilterMask
      s.defaultSenderId =
      { can_id := s.defaultSenderId, can_mask := s.canFilterMask } := by
    unfold filterFor
    by_cases h0 : s.defaultSenderId = 0 <;> simp [h0]
  refine ⟨?_, ?_, ?_, ?_, ?_⟩
  · intro h1
    simp [initialiseSocketCan, h1]
  · intro h1 h2
    simp [initialiseSocketCan, h1, h2]
  · intro h1 h2 h3
    have hne : ¬ (os.socketRes = -1) := by omega
    have hlt : ¬ (os.socketRes < 0) := by omega
    simp [initialiseSocketCan, setCanFilterMask, hne, h2, h3, hlt, hfl]
  · intro h1 h2 h3 h4
    have hne : ¬ (os.socketRes = -1) := by omega
    have hlt : ¬ (os.socketRes < 0) := by omega
    simp [initialiseSocketCan, setCanFilterMask, hne, h2, h3, h4, hlt, hfl]
  · intro h1 h2 h3 h4
    have hne : ¬ (os.socketRes = -1) := by omega
    have hlt : ¬ (os.socketRes < 0) := by omega
    simp [initialiseSocketCan, setCanFilterMask, hne, h2, h3, h4, hlt, hfl]

/-- C9 witness: a fully successful run installs the filter
`{defaultSenderId 7, mask 5}` before the bind and yields the bound
state. -/
theorem initialiseSocketCan_spec_witness :
    initialiseSocketCan ⟨7, 5, 1, -1, 0⟩ ⟨3, 0, 0, 0, 0, 0⟩ =
      (.ok ⟨7, 5, 1, 3, 0⟩,
       [.socketCreate, .ioctlIfindex, .fcntlGetFl, .fcntlSetFl,
        .installFilter ⟨7, 5⟩, .bindSocket]) :=
  (initialiseSocketCan_spec ⟨7, 5, 1, -1, 0⟩ ⟨3, 0, 0, 0, 0, 0⟩).2.2.2.2
    (by decide) (by decide) (by decide) (by decide)

end Sockcanpp
